import Mathlib

/-!
Verification development for the `api-doc-assistant` matching core
(`app/parser.py`, `app/llm_wrapper.py`, `app/resolver.py`).

The Python code works on values produced by `json.load`: JSON trees of
dicts, lists, strings, numbers, booleans and `None`.  We embed such
values as the inductive type `Json` below.  Python dicts are modelled as
association lists that keep insertion order (Python dict iteration
order); `json.load` never produces duplicate keys, and lookups take the
first matching key.  JSON numbers are modelled as integers: every number
the embedded code produces or inspects is an integer (the sampler's
`0.0` is modelled as `0`; no claim depends on float rendering).

Python raises `AttributeError`/`TypeError` when dict operations hit a
non-dict value.  The embedding totalises those operations (returning
empty/none); theorems about the parser and resolver therefore carry a
`SpecWF` hypothesis stating that the document is OpenAPI-shaped exactly
where the code dereferences it, which is the domain on which the
embedding agrees with the Python code.  The one place where a claim is
explicitly about malformed input — `sample_from_schema` — is embedded
with an explicit exception monad (`sampleE`) so that the raising
behaviour is visible.
-/

inductive Json where
  | null : Json
  | bool : Bool → Json
  | num : Int → Json
  | str : String → Json
  | arr : List Json → Json
  | obj : List (String × Json) → Json
deriving Repr

namespace Json

/-- Python truthiness of a JSON value (`bool(x)`). -/
def truthy : Json → Bool
  | .null => false
  | .bool b => b
  | .num n => n != 0
  | .str s => s ≠ ""
  | .arr xs => !xs.isEmpty
  | .obj fs => !fs.isEmpty

/-- `d.get(k)` on a dict: first binding of `k`, if any.  Returns `none`
on non-dict values (where Python would raise; see `SpecWF`). -/
def lookup : Json → String → Option Json
  | .obj fs, k => (fs.find? (fun kv => kv.1 = k)).map (·.2)
  | _, _ => none

/-- `d.get(k, default)`. -/
def getD (j : Json) (k : String) (d : Json) : Json := (j.lookup k).getD d

/-- `d.items()` for dicts, `[]` otherwise. -/
def items : Json → List (String × Json)
  | .obj fs => fs
  | _ => []

/-- list iteration: elements for arrays, `[]` otherwise. -/
def elems : Json → List Json
  | .arr xs => xs
  | _ => []

def isObjB : Json → Bool
  | .obj _ => true
  | _ => false

/-- Python `x is None` (the embedded `None` is `Json.null`). -/
def isNull : Json → Bool
  | .null => true
  | _ => false

def isStrB : Json → Bool
  | .str _ => true
  | _ => false

/-- the string payload, `""` for non-strings. -/
def asStr : Json → String
  | .str s => s
  | _ => ""

end Json

/-- Python `a or b`. -/
def pyOr (a b : Json) : Json := if a.truthy then a else b

-- Computable size of a JSON tree, used as recursion fuel.
mutual
def sizeJ : Json → Nat
  | .null => 1
  | .bool _ => 1
  | .num _ => 1
  | .str _ => 1
  | .arr xs => 1 + sizeJL xs
  | .obj fs => 1 + sizeJF fs
def sizeJL : List Json → Nat
  | [] => 1
  | x :: xs => 1 + sizeJ x + sizeJL xs
def sizeJF : List (String × Json) → Nat
  | [] => 1
  | kv :: fs => 1 + sizeJ kv.2 + sizeJF fs
end

theorem sizeJ_lt_of_mem {kv : String × Json} {fs : List (String × Json)}
    (h : kv ∈ fs) : sizeJ kv.2 < sizeJF fs := by
  induction fs with
  | nil => simp at h
  | cons hd tl ih =>
      rcases List.mem_cons.mp h with h | h
      · subst h; simp [sizeJF]; omega
      · have := ih h; simp [sizeJF]; omega

theorem sizeJ_items_lt {j : Json} {kv : String × Json}
    (h : kv ∈ j.items) : sizeJ kv.2 < sizeJ j := by
  cases j with
  | obj fs =>
      have := @sizeJ_lt_of_mem kv fs h
      simp [sizeJ]; omega
  | null => simp [Json.items] at h
  | bool b => simp [Json.items] at h
  | num n => simp [Json.items] at h
  | str s => simp [Json.items] at h
  | arr xs => simp [Json.items] at h

theorem sizeJ_lookup_lt {j : Json} {k : String} {v : Json}
    (h : j.lookup k = some v) : sizeJ v < sizeJ j := by
  cases j with
  | obj fs =>
      simp only [Json.lookup, Option.map_eq_some'] at h
      obtain ⟨kv, hfind, hv⟩ := h
      have hmem := List.mem_of_find?_eq_some hfind
      have h2 := @sizeJ_items_lt (Json.obj fs) kv hmem
      subst hv
      exact h2
  | null => simp [Json.lookup] at h
  | bool b => simp [Json.lookup] at h
  | num n => simp [Json.lookup] at h
  | str s => simp [Json.lookup] at h
  | arr xs => simp [Json.lookup] at h

/-! ## `app/parser.py` -/

/-- Prefix test on char lists (`needle` a prefix of `hay`). -/
def startsWithL : List Char → List Char → Bool
  | [], _ => true
  | _ :: _, [] => false
  | a :: as, b :: bs => a = b && startsWithL as bs

/-- Python `hay.startswith(needle)`. -/
def strStarts (needle hay : String) : Bool := startsWithL needle.toList hay.toList

/-- Python `needle in hay` substring test. -/
def strIn (needle hay : String) : Bool :=
  go needle.toList hay.toList
where
  go (n : List Char) : List Char → Bool
    | [] => n.isEmpty
    | c :: t => startsWithL n (c :: t) || go n t

/-- Python `s.lower()` (ASCII case folding, as every character where
Python's Unicode folding differs is a token separator downstream). -/
def pyLower (s : String) : String := String.mk (s.toList.map Char.toLower)

/-- Python `s.upper()` (ASCII). -/
def pyUpper (s : String) : String := String.mk (s.toList.map Char.toUpper)

def pyWsChar (c : Char) : Bool :=
  c.toNat = 32 || c.toNat = 9 || c.toNat = 10 || c.toNat = 13 ||
    c.toNat = 11 || c.toNat = 12

/-- Python `s.strip()`. -/
def pyStrip (s : String) : String :=
  String.mk (((s.toList.dropWhile pyWsChar).reverse.dropWhile pyWsChar).reverse)

/-- Python `s.split(sep)` for a one-character separator (keeps empty
pieces, as Python does). -/
def splitChar (sep : Char) (s : String) : List String :=
  go [] s.toList
where
  go (cur : List Char) : List Char → List String
    | [] => [String.mk cur.reverse]
    | c :: rest =>
        if c = sep then String.mk cur.reverse :: go [] rest
        else go (c :: cur) rest

/-- Python `s.split()` (split on whitespace runs, no empty pieces). -/
def pySplitWs (s : String) : List String :=
  go [] s.toList
where
  go (cur : List Char) : List Char → List String
    | [] => if cur.isEmpty then [] else [String.mk cur.reverse]
    | c :: rest =>
        if pyWsChar c then
          if cur.isEmpty then go [] rest else String.mk cur.reverse :: go [] rest
        else go (c :: cur) rest

/-- `_tokens`: lower-case, then the maximal runs of `[a-z0-9]`
characters (the regex `re.split(r"[^a-z0-9]+", ...)` with empty pieces
discarded). -/
def pyTokens (text : String) : List String :=
  go [] (pyLower text).toList
where
  tokChar (c : Char) : Bool := ('a' ≤ c && c ≤ 'z') || ('0' ≤ c && c ≤ '9')
  go (cur : List Char) : List Char → List String
    | [] => if cur.isEmpty then [] else [String.mk cur.reverse]
    | c :: rest =>
        if tokChar c then go (c :: cur) rest
        else if cur.isEmpty then go [] rest
        else String.mk cur.reverse :: go [] rest

/-- Last segment of `ref.split("/")`. -/
def lastSeg (s : String) : String := (splitChar '/' s).getLastD ""

/-- schema names referenced by one operation, lower-cased
(`score_endpoint` lines 30-45): request-body media schemas' `$ref`s and
parameters' schema `$ref`s that start with `#/components/schemas/`. -/
def scoreSchemaNames (info : Json) : List String :=
  let rb := info.getD "requestBody" (.obj [])
  let content := if rb.isObjB then rb.getD "content" (.obj []) else .obj []
  (content.items.filterMap fun mc =>
    let sch := if (mc.2).isObjB then (mc.2).getD "schema" (.obj []) else .obj []
    match sch.lookup "$ref" with
    | some (.str r) =>
        if strStarts "#/components/schemas/" r then some (pyLower (lastSeg r))
        else none
    | _ => none)
  ++ ((pyOr (info.getD "parameters" (.arr [])) (.arr [])).elems.filterMap fun p =>
    let psch := pyOr (p.getD "schema" (.obj [])) (.obj [])
    match psch.lookup "$ref" with
    | some (.str r) =>
        if strStarts "#/components/schemas/" r then some (pyLower (lastSeg r))
        else none
    | _ => none)

/-- Contribution of one query token (the body of the `for t in
query_tokens` loop of `score_endpoint`). -/
def tokenScore (t : String) (path_low : String)
    (op_tokens summary_tokens desc_tokens schema_names : List String) : Int :=
  (if strIn t path_low then 3 else 0)
    + (if t ∈ op_tokens ∨ t ∈ summary_tokens then 2 else 0)
    + (if t ∈ desc_tokens then 1 else 0)
    + (if t ∈ schema_names then 1 else 0)

/-- `(info.get(k) or "") or ""` as the string the tokenizer receives
(a truthy non-string value would make Python raise; `opWF` rules those
out). -/
def fieldStr (info : Json) (k : String) : String :=
  (pyOr (pyOr (info.getD k .null) (.str "")) (.str "")).asStr

/-- `score_endpoint(query_tokens, path, method, info, components_schemas)`.
`method` and `components_schemas` are unused, exactly as in the source. -/
def score_endpoint (query_tokens : List String) (path : String) (method : String)
    (info : Json) (components_schemas : Json) : Int :=
  let path_low := pyLower path
  let summary_tokens := pyTokens (fieldStr info "summary")
  let desc_tokens := pyTokens (fieldStr info "description")
  let op_tokens := pyTokens (fieldStr info "operationId")
  let schema_names := scoreSchemaNames info
  (query_tokens.map fun t =>
    tokenScore t path_low op_tokens summary_tokens desc_tokens schema_names).sum

/-- One ranked candidate (`find_candidates` appends these dicts). -/
structure Candidate where
  route : String
  method : String
  summary : Json
  operationId : Json
  schema_refs : List String
  score : Int
deriving Repr

/-- `list(dict.fromkeys(xs))`: deduplicate keeping first occurrences. -/
def dedupFirstAux (seen : List String) : List String → List String
  | [] => []
  | x :: xs =>
      if x ∈ seen then dedupFirstAux seen xs
      else x :: dedupFirstAux (x :: seen) xs

def dedupFirst (l : List String) : List String := dedupFirstAux [] l

/-- Raw (not lower-cased, not prefix-trimmed beyond the check) schema
ref names collected by `find_candidates` lines 74-87. -/
def candSchemaRefs (info : Json) : List String :=
  let rb := pyOr (info.getD "requestBody" (.obj [])) (.obj [])
  let content := if rb.isObjB then rb.getD "content" (.obj []) else .obj []
  (content.items.filterMap fun mc =>
    if (mc.2).isObjB then
      let sch := pyOr ((mc.2).getD "schema" .null) (.obj [])
      match sch.lookup "$ref" with
      | some (.str r) =>
          if strStarts "#/components/schemas/" r then some (lastSeg r) else none
      | _ => none
    else none)
  ++ ((pyOr (info.getD "parameters" (.arr [])) (.arr [])).elems.filterMap fun p =>
    let ps := pyOr (p.getD "schema" (.obj [])) (.obj [])
    match ps.lookup "$ref" with
    | some (.str r) =>
        if strStarts "#/components/schemas/" r then some (lastSeg r) else none
    | _ => none)

/-- The candidate dict built for one `(route, method, info)` triple. -/
def mkCandidate (qtokens : List String) (components_schemas : Json)
    (route method : String) (info : Json) : Candidate :=
  { route := route
    method := method
    summary := info.getD "summary" .null
    operationId := info.getD "operationId" .null
    schema_refs := dedupFirst (candSchemaRefs info)
    score := score_endpoint qtokens route method info components_schemas }

/-- `spec.get("paths", {}) or {}`. -/
def pathsOf (spec : Json) : Json := pyOr (spec.getD "paths" (.obj [])) (.obj [])

/-- The operations `find_candidates` enumerates: every `(route, method,
info)` with `info` dict-shaped (non-dict entries are skipped). -/
def specOperations (spec : Json) : List (String × String × Json) :=
  (pathsOf spec).items.flatMap fun rm =>
    (pyOr rm.2 (.obj [])).items.filterMap fun mi =>
      if (mi.2).isObjB then some (rm.1, mi.1, mi.2) else none

/-- The unsorted candidate list built by `find_candidates`' loop. -/
def rawCandidates (spec : Json) (qtokens : List String) : List Candidate :=
  let components_schemas :=
    pyOr ((pyOr (spec.getD "components" .null) (.obj [])).getD "schemas" .null) (.obj [])
  (specOperations spec).map fun rmi => mkCandidate qtokens components_schemas rmi.1 rmi.2.1 rmi.2.2

/-- The sort order of `candidates.sort(key=lambda x: (-x["score"],
x["route"], x["method"]))`: score descending, then route ascending, then
method ascending (string comparison as in Python). -/
def candRel (a b : Candidate) : Prop :=
  b.score < a.score ∨ (a.score = b.score ∧
    (a.route < b.route ∨ (a.route = b.route ∧ a.method ≤ b.method)))

instance : DecidableRel candRel := fun a b => by
  unfold candRel; infer_instance

/-- `find_candidates(spec, query, top_k)`: build, stable-sort by the
key above, truncate to `top_k`.  (Python's `list.sort` is a stable sort
by that key; `List.insertionSort` with the reflexive key order is the
same stable sort.) -/
def find_candidates (spec : Json) (query : String) (top_k : Nat) : List Candidate :=
  (List.insertionSort candRel (rawCandidates spec (pyTokens query))).take top_k

example : pyTokens "Which endpoint tells me, about-the health?" =
    ["which", "endpoint", "tells", "me", "about", "the", "health"] := by rfl
example : strIn "heal" "/health" = true := by rfl
example : strIn "heath" "/health" = false := by rfl

/-! ## `app/llm_wrapper.py`

`_call_chat` performs the network call and returns the assistant text,
or `""` on any transport/HTTP/parse failure.  The backend is external
and nondeterministic, so `choose` is embedded as a function of the
answer text it receives: `choose text candidates` is
`LLMChooser.choose` run in a world where `_call_chat` returned `text`.
An unreachable backend is exactly `text = ""`.

Candidates are modelled as `Candidate` records — the shape the chooser's
docstring requires ("list of dicts with keys: route, method, summary")
and the shape `find_candidates` produces.  On such candidates no
expression inside the `try:` block can raise, so the `except` handler
(lines 104-111) is unreachable and the deterministic fallback is the one
at lines 100-102, which returns the best-scored candidate without any
score threshold. -/

inductive Choice where
  | none : Choice
  | found : String → String → Choice
deriving Repr, DecidableEq

def VALID_METHODS : List String :=
  ["get", "post", "put", "delete", "patch", "options", "head"]

/-- Lines 82-89: normalize the method token from the answer. -/
def normalizeMethod (raw : String) : String :=
  let raw := pyStrip (pyLower raw)
  let raw := if raw.toList.contains '=' then (splitChar '=' raw).getLastD "" else raw
  String.mk (raw.toList.filter fun c => 'a' ≤ c && c ≤ 'z')

/-- Lines 101/108: `max(candidates, key=lambda c: c.get("score", 0.0))`
— Python's `max` keeps the first of equally-scored candidates. -/
def firstMaxByScore : List Candidate → Candidate
  | [] => { route := "", method := "", summary := .null, operationId := .null,
            schema_refs := [], score := 0 }
  | c :: cs => cs.foldl (fun best x => if best.score < x.score then x else best) c

/-- Lines 100-102: the deterministic fallback reached when the answer
does not parse/validate (no score check on this path). -/
def parseFallback (candidates : List Candidate) : Choice :=
  .found (firstMaxByScore candidates).route (firstMaxByScore candidates).method

/-- `LLMChooser.choose(question, candidates)` given the text `_call_chat`
returned.  The question only influences the prompt (hence the answer),
so it does not appear. -/
def choose (text : String) (candidates : List Candidate) : Choice :=
  if candidates.isEmpty then .none
  else if text = "" then .none
  else if strStarts "NONE" (pyUpper text) then .none
  else
    match pySplitWs (pyStrip text) with
    | route :: rawMethod :: _ =>
      let route := pyStrip route
      let method := normalizeMethod rawMethod
      if method ∈ VALID_METHODS then
        match candidates.find? (fun c => c.route = route && pyLower c.method = method) with
        | some _ => .found route method
        | none => parseFallback candidates
      else parseFallback candidates
    | _ => parseFallback candidates

example : normalizeMethod "method=GET>" = "get" := by rfl

/-- Compact candidate constructor used by concrete test inputs. -/
def mkC (r m : String) (sc : Int) : Candidate :=
  { route := r, method := m, summary := .null, operationId := .null,
    schema_refs := [], score := sc }

example : choose "/health get" [mkC "/health" "GET" 5] = .found "/health" "get" := by rfl
example : choose "garbage" [mkC "/health" "get" 0] = .found "/health" "get" := by rfl
example : choose "" [mkC "/health" "get" 5] = .none := by rfl
example : choose "NONE of these" [mkC "/h" "get" 5] = .none := by rfl

/-! ## `app/resolver.py` -/

/-- Python `s.rstrip("/")`. -/
def rstripSlash (s : String) : String :=
  String.mk (s.toList.reverse.dropWhile (· = '/')).reverse

/-- `_find_operation(spec, route, method)`.  Mirrors the source: direct
`paths.get(route)`; if that is missing *or falsy*, scan `paths.keys()`
in order for the first key equal modulo trailing slashes and re-fetch
it; if the entry is still falsy return `None`; otherwise
`entry.get(method.lower())`. -/
def findOperation (spec : Json) (route method : String) : Option Json :=
  let paths := pathsOf spec
  let entry := (paths.lookup route).getD .null
  let entry :=
    if entry.truthy then entry
    else
      match paths.items.find? (fun kv => rstripSlash kv.1 = rstripSlash route) with
      | some kv => (paths.lookup kv.1).getD .null
      | none => entry
  if !entry.truthy then none
  else entry.lookup (pyLower method)

/-- `_resolve_schema_ref(spec, ref)`: `ref` must be a string with the
`#/components/schemas/` prefix; name lookup in `components.schemas`. -/
def resolveSchemaRef (spec : Json) (ref : Json) : Option Json :=
  match ref with
  | .str r =>
      if strStarts "#/components/schemas/" r then
        ((pyOr (spec.getD "components" .null) (.obj [])).getD "schemas" (.obj [])
          |> fun schemas => pyOr schemas (.obj [])).lookup (lastSeg r)
      else none
  | _ => none

/-- `_collect_schema_refs(op)`: every truthy `$ref` value from the
request-body media schemas and the parameters' schemas, in order.  The
appended values are kept verbatim (they are JSON values, not
necessarily strings). -/
def collect_schema_refs (op : Json) : List Json :=
  let rb := pyOr (op.getD "requestBody" .null) (.obj [])
  let content := pyOr (rb.getD "content" .null) (.obj [])
  (content.items.filterMap fun mc =>
    let sch := pyOr ((mc.2).getD "schema" .null) (.obj [])
    match sch.lookup "$ref" with
    | some r => if r.truthy then some r else none
    | none => none)
  ++ ((pyOr (op.getD "parameters" .null) (.arr [])).elems.filterMap fun p =>
    let s := pyOr (p.getD "schema" .null) (.obj [])
    match s.lookup "$ref" with
    | some r => if r.truthy then some r else none
    | none => none)

def errNotFound : Json := .obj [("error", .str "operation not found")]

/-- `if not op:` over the `Optional[Dict]` returned by
`_find_operation`: `None` and falsy dicts both fail. -/
def opTruthy : Option Json → Bool
  | some j => j.truthy
  | none => false

/-- `render_summary(spec, route, method)`. -/
def render_summary (spec : Json) (route method : String) : Json :=
  match findOperation spec route method with
  | none => errNotFound
  | some op =>
      if !op.truthy then errNotFound
      else
        .obj [("route", .str route),
              ("method", .str (pyLower method)),
              ("summary", op.getD "summary" .null),
              ("description", op.getD "description" .null),
              ("operationId", op.getD "operationId" .null),
              ("schema_refs", .arr (collect_schema_refs op))]

/-- Python dict insertion `d[k] = v`: overwrite in place or append. -/
def dictInsert (fs : List (String × Json)) (k : String) (v : Json) :
    List (String × Json) :=
  if fs.any (fun kv => kv.1 = k) then
    fs.map fun kv => if kv.1 = k then (k, v) else kv
  else fs ++ [(k, v)]

/-- `render_schema(spec, route, method)`. -/
def render_schema (spec : Json) (route method : String) : Json :=
  match findOperation spec route method with
  | none => errNotFound
  | some op =>
      if !op.truthy then errNotFound
      else
        let refs := collect_schema_refs op
        let schemas := refs.foldl (fun acc r =>
          match resolveSchemaRef spec r with
          | some sch => if sch.truthy then dictInsert acc (lastSeg r.asStr) sch else acc
          | none => acc) []
        .obj [("schemas", .obj schemas), ("refs", .arr refs)]

/-! ### `sample_from_schema`

Embedded twice.  `sampleE` is the faithful version: it makes the one
exception the source can raise visible (`props.items()` raises
`AttributeError` when an object-typed/untyped schema carries a truthy
non-dict `properties` value), and carries fuel to make the recursion —
whose termination is exactly what claim C7 asserts — explicit.
`some r` means the call finished with outcome `r` within the fuel;
`fuelForSample` below proves the fuel `sizeOf schema` always suffices.
`sampleT` is the totalised version used by the renderers, which agrees
with `sampleE` whenever no raise happens (`sampleE_ok_of_propsOk`). -/

/-- Python `j == s` against a string literal. -/
def Json.eqStr : Json → String → Bool
  | .str t, s => t = s
  | _, _ => false

def sampleT : Nat → Json → Json
  | 0, _ => .null
  | n + 1, schema =>
    if !schema.isObjB then .null
    else
      let t := (schema.lookup "type").getD .null
      if t.eqStr "object" || (!t.truthy && (schema.lookup "properties").isSome) then
        let props := pyOr (schema.getD "properties" (.obj [])) (.obj [])
        .obj (props.items.map fun kv =>
          (kv.1, if (kv.2).isObjB then sampleT n kv.2 else .null))
      else if t.eqStr "array" then
        .arr [sampleT n (schema.getD "items" (.obj []))]
      else if t.eqStr "string" then
        if ((schema.lookup "format").getD .null).eqStr "date-time" then
          .str "2024-01-01T00:00:00Z"
        else .str "string_example"
      else if t.eqStr "integer" then .num 0
      else if t.eqStr "number" then .num 0
      else if t.eqStr "boolean" then .bool false
      else .null

/-- Sequence the object-branch recursion over the properties, in the
`Option` (fuel) and `Except` (raise) layers. -/
def exFields (f : Json → Option (Except Unit Json)) :
    List (String × Json) → Option (Except Unit (List (String × Json)))
  | [] => some (.ok [])
  | kv :: rest =>
      match (if (kv.2).isObjB then f kv.2 else some (.ok .null)) with
      | none => none
      | some (.error e) => some (.error e)
      | some (.ok v) =>
          match exFields f rest with
          | none => none
          | some (.error e) => some (.error e)
          | some (.ok vs) => some (.ok ((kv.1, v) :: vs))

def sampleE : Nat → Json → Option (Except Unit Json)
  | 0, _ => none
  | n + 1, schema =>
    if !schema.isObjB then some (.ok .null)
    else
      let t := (schema.lookup "type").getD .null
      if t.eqStr "object" || (!t.truthy && (schema.lookup "properties").isSome) then
        let props := pyOr (schema.getD "properties" (.obj [])) (.obj [])
        if props.isObjB then
          match exFields (fun v => sampleE n v) props.items with
          | none => none
          | some (.error e) => some (.error e)
          | some (.ok fs) => some (.ok (.obj fs))
        else some (.error ())
      else if t.eqStr "array" then
        match sampleE n (schema.getD "items" (.obj [])) with
        | none => none
        | some (.error e) => some (.error e)
        | some (.ok v) => some (.ok (.arr [v]))
      else if t.eqStr "string" then
        if ((schema.lookup "format").getD .null).eqStr "date-time" then
          some (.ok (.str "2024-01-01T00:00:00Z"))
        else some (.ok (.str "string_example"))
      else if t.eqStr "integer" then some (.ok (.num 0))
      else if t.eqStr "number" then some (.ok (.num 0))
      else if t.eqStr "boolean" then some (.ok (.bool false))
      else some (.ok .null)

/-- `sample_from_schema(schema)`, with the fuel instantiated to the
always-sufficient `sizeJ schema` (theorem `fuelForSample`): `.ok v` is
a normal return, `.error ()` is the `AttributeError` raise. -/
def sample_from_schema (schema : Json) : Except Unit Json :=
  (sampleE (sizeJ schema) schema).getD (.error ())

/-- The totalised sampler used to state renderer results. -/
def sampleTotal (schema : Json) : Json := sampleT (sizeJ schema) schema

example : sample_from_schema (.obj [("type", .str "object"),
    ("properties", .str "x")]) = .error () := by rfl
example : sample_from_schema (.obj [("type", .str "object"),
    ("properties", .obj [("name", .obj [("type", .str "string")])])]) =
    .ok (.obj [("name", .str "string_example")]) := by rfl
example : sampleTotal (.obj [("type", .str "array"),
    ("items", .obj [("type", .str "integer")])]) = .arr [.num 0] := by rfl
example : sampleTotal (.obj []) = .null := by rfl

def errNoRB : Json := .obj [("error", .str "no requestBody schema found")]

/-- The media-type loop of `render_sample` (lines 114-125): a `$ref`
media returns only if the ref resolves to a truthy schema, otherwise
the loop continues; an inline media returns immediately (even when the
sample is null). -/
def renderSampleLoop (spec : Json) : List (String × Json) → Json
  | [] => errNoRB
  | (mime, c) :: rest =>
      let sch := pyOr (c.getD "schema" .null) (.obj [])
      let ref := (sch.lookup "$ref").getD .null
      if ref.truthy then
        match resolveSchemaRef spec ref with
        | some so =>
            if so.truthy then
              .obj [("content_type", .str mime), ("sample", sampleTotal so),
                    ("schema_ref", ref)]
            else renderSampleLoop spec rest
        | none => renderSampleLoop spec rest
      else
        .obj [("content_type", .str mime), ("sample", sampleTotal sch),
              ("schema_ref", .null)]

/-- `render_sample(spec, route, method)`. -/
def render_sample (spec : Json) (route method : String) : Json :=
  match findOperation spec route method with
  | none => errNotFound
  | some op =>
      if !op.truthy then errNotFound
      else
        let rb := pyOr (op.getD "requestBody" .null) (.obj [])
        let content := pyOr (rb.getD "content" .null) (.obj [])
        renderSampleLoop spec content.items

/-! ### `json.dumps` (default separators, `ensure_ascii=True`).
Escaping matches Python on the Basic Multilingual Plane (astral
characters would use surrogate pairs; none of the literals the sampler
can emit contain any). -/

def hexDigit (n : Nat) : Char :=
  if n < 10 then Char.ofNat (48 + n) else Char.ofNat (97 + n - 10)

def hex4 (n : Nat) : String :=
  String.mk [hexDigit (n / 4096 % 16), hexDigit (n / 256 % 16),
             hexDigit (n / 16 % 16), hexDigit (n % 16)]

def escapeJsonChar (c : Char) : String :=
  if c = '"' then "\\\""
  else if c = '\\' then "\\\\"
  else if c = '\n' then "\\n"
  else if c = '\r' then "\\r"
  else if c = '\t' then "\\t"
  else if c.toNat = 8 then "\\b"
  else if c.toNat = 12 then "\\f"
  else if c.toNat < 32 || c.toNat > 126 then "\\u" ++ hex4 c.toNat
  else String.mk [c]

def escapeJson (s : String) : String := String.join (s.toList.map escapeJsonChar)

def joinComma : List String → String
  | [] => ""
  | [x] => x
  | x :: xs => x ++ ", " ++ joinComma xs

def jsonDumpsF : Nat → Json → String
  | 0, _ => ""
  | n + 1, j =>
    match j with
    | .null => "null"
    | .bool b => if b then "true" else "false"
    | .num i => toString i
    | .str s => "\"" ++ escapeJson s ++ "\""
    | .arr xs => "[" ++ joinComma (xs.map fun x => jsonDumpsF n x) ++ "]"
    | .obj fs =>
        "\x7b" ++ joinComma (fs.map fun kv =>
          "\"" ++ escapeJson kv.1 ++ "\": " ++ jsonDumpsF n kv.2) ++ "\x7d"

def jsonDumps (j : Json) : String := jsonDumpsF (sizeJ j) j

example : jsonDumps (.obj [("name", .str "string_example"), ("n", .num 0)]) =
    "\x7b\"name\": \"string_example\", \"n\": 0\x7d" := by rfl

/-- The sample `render_curl` computes for one media dict (lines
147-153): prefer resolving a truthy `$ref` (falling back to `None` when
it does not resolve truthy), else sample the inline schema. -/
def mediaSample (spec : Json) (c : Json) : Json :=
  let sch := pyOr (c.getD "schema" .null) (.obj [])
  if ((sch.lookup "$ref").getD .null).truthy then
    match resolveSchemaRef spec ((sch.lookup "$ref").getD .null) with
    | some so => if so.truthy then sampleTotal so else .null
    | none => .null
  else sampleTotal sch

/-- The media-type loop of `render_curl` (lines 146-158): append a
content-type header and body for the first media whose sample `is not
None`, then `break`. -/
def curlBodySuffix (spec : Json) : List (String × Json) → String
  | [] => ""
  | (mime, c) :: rest =>
      let sample := mediaSample spec c
      if sample.isNull then curlBodySuffix spec rest
      else " -H \"Content-Type: " ++ mime ++ "\" -d '" ++ jsonDumps sample ++ "'"

/-- `render_curl(spec, route, method)`. -/
def render_curl (spec : Json) (route method : String) : Json :=
  match findOperation spec route method with
  | none => errNotFound
  | some op =>
      if !op.truthy then errNotFound
      else
        let curl := "curl -X " ++ pyUpper method ++ " \"http://<HOST>" ++ route ++ "\""
        let rb := pyOr (op.getD "requestBody" .null) (.obj [])
        let content := pyOr (rb.getD "content" .null) (.obj [])
        let curl := curl ++ curlBodySuffix spec content.items
        let sec := pyOr (op.getD "security" .null)
          (pyOr (spec.getD "security" .null) (.arr []))
        let curl := if sec.truthy then
            curl ++ " -H \"Authorization: Bearer <TOKEN>\"" else curl
        .obj [("curl", .str curl)]

/-! ### Well-formedness of the document

The embedding totalises Python dict/list operations.  `SpecWF` is the
Bool predicate stating that the document is OpenAPI-v3-shaped exactly
where `parser.py` and `resolver.py` dereference it — on this domain the
embedding computes precisely what the Python code computes, while off
it the Python code raises (`AttributeError`/`TypeError`) instead of
returning.  Theorems that quantify over "valid"/"well-formed" specs
take `SpecWF spec = true` as their hypothesis. -/

def Json.isArrB : Json → Bool
  | .arr _ => true
  | _ => false

def objOrFalsyB (j : Json) : Bool := j.isObjB || !j.truthy
def arrOrFalsyB (j : Json) : Bool := j.isArrB || !j.truthy
def strOrFalsyB (j : Json) : Bool := j.isStrB || !j.truthy

/-- No reachable truthy non-dict `properties` value anywhere in the
tree (the only shape `sample_from_schema` raises on), with fuel. -/
def propsOkF : Nat → Json → Bool
  | 0, _ => false
  | n + 1, .obj fs =>
      fs.all fun kv => (kv.1 != "properties" || objOrFalsyB kv.2) && propsOkF n kv.2
  | n + 1, .arr xs => xs.all fun x => propsOkF n x
  | _ + 1, _ => true

def PropsOk (j : Json) : Bool := propsOkF (sizeJ j) j

def rbJ (op : Json) : Json := pyOr (op.getD "requestBody" .null) (.obj [])
def contentJ (op : Json) : Json := pyOr ((rbJ op).getD "content" .null) (.obj [])
def paramsJ (op : Json) : Json := pyOr (op.getD "parameters" .null) (.arr [])
def schemasJ (spec : Json) : Json :=
  pyOr ((pyOr (spec.getD "components" .null) (.obj [])).getD "schemas" .null) (.obj [])

def mediaWF (c : Json) : Bool :=
  c.isObjB && ((c.lookup "schema").all fun sch => sch.isObjB) &&
    PropsOk (pyOr (c.getD "schema" .null) (.obj []))

def paramWF (p : Json) : Bool :=
  p.isObjB && objOrFalsyB (p.getD "schema" .null)

def opWF (op : Json) : Bool :=
  strOrFalsyB (op.getD "summary" .null) &&
  strOrFalsyB (op.getD "description" .null) &&
  strOrFalsyB (op.getD "operationId" .null) &&
  objOrFalsyB (op.getD "requestBody" .null) &&
  ((rbJ op).lookup "content").all Json.isObjB &&
  ((contentJ op).items.all fun mc => mediaWF mc.2) &&
  arrOrFalsyB (op.getD "parameters" .null) &&
  ((paramsJ op).elems.all paramWF)

def SpecWF (spec : Json) : Bool :=
  spec.isObjB &&
  objOrFalsyB (spec.getD "paths" .null) &&
  ((pathsOf spec).items.all fun rm =>
    objOrFalsyB rm.2 &&
      ((pyOr rm.2 (.obj [])).items.all fun mi =>
        objOrFalsyB mi.2 && (!mi.2.isObjB || opWF mi.2))) &&
  objOrFalsyB (spec.getD "components" .null) &&
  objOrFalsyB ((pyOr (spec.getD "components" .null) (.obj [])).getD "schemas" .null) &&
  ((schemasJ spec).items.all fun kv => PropsOk kv.2)

/-! ### Concrete documents used by witnesses and counterexamples -/

/-- `{"paths": {"/health": {"get": {"summary": "Health check"}}}}` -/
def exSpecHealth : Json :=
  .obj [("paths", .obj [("/health", .obj [("get",
    .obj [("summary", .str "Health check")])])])]

/-- A spec whose first media type has an unsampleable (empty) schema and
whose second is sampleable. -/
def exSpecMulti : Json :=
  .obj [("paths", .obj [("/a", .obj [("post", .obj [("requestBody",
    .obj [("content", .obj [
      ("application/xml", .obj [("schema", .obj [])]),
      ("application/json", .obj [("schema", .obj [("type", .str "integer")])])
    ])])])])])]

/-- A spec defining both `/a/` (with a GET operation) and `/a` (with an
empty path item), in that order. -/
def exSpecSlash : Json :=
  .obj [("paths", .obj [
    ("/a/", .obj [("get", .obj [("summary", .str "s")])]),
    ("/a", .obj [])])]

/-- A spec with one GET operation that declares no request body. -/
def exSpecNoRB : Json :=
  .obj [("paths", .obj [("/a", .obj [("get", .obj [("summary", .str "x")])])])]

example : SpecWF exSpecHealth = true := by rfl
example : SpecWF exSpecMulti = true := by rfl
example : SpecWF exSpecSlash = true := by rfl
example : SpecWF exSpecNoRB = true := by rfl

example :
    (find_candidates exSpecHealth "health" 10).map
      (fun c => (c.route, c.method, c.score)) = [("/health", "get", 5)] := by rfl

example : render_summary exSpecSlash "/a" "get" =
    .obj [("route", .str "/a"), ("method", .str "get"), ("summary", .str "s"),
          ("description", .null), ("operationId", .null),
          ("schema_refs", .arr [])] := by rfl

example : render_sample exSpecNoRB "/a" "get" = errNoRB := by rfl

example : render_curl exSpecMulti "/a" "post" =
    .obj [("curl", .str "curl -X POST \"http://<HOST>/a\" -H \"Content-Type: application/json\" -d '0'")] := by rfl

/-! ### Lemmas about the chooser -/

theorem char_toLower_fix (c : Char) (h1 : 'a' ≤ c) (h2 : c ≤ 'z') :
    c.toLower = c := by
  have g1 : 97 ≤ c.toNat := h1
  have g2 : c.toNat ≤ 122 := h2
  unfold Char.toLower
  rw [if_neg]
  omega

theorem map_toLower_fix (l : List Char)
    (h : ∀ c ∈ l, ('a' ≤ c && c ≤ 'z') = true) : l.map Char.toLower = l := by
  induction l with
  | nil => rfl
  | cons c t ih =>
      have hc := h c (List.mem_cons_self c t)
      simp only [Bool.and_eq_true, decide_eq_true_eq] at hc
      simp [char_toLower_fix c hc.1 hc.2, ih fun x hx => h x (List.mem_cons_of_mem c hx)]

/-- The normalized method consists only of `a`-`z`, so lower-casing it
again changes nothing. -/
theorem pyLower_normalizeMethod (s : String) :
    pyLower (normalizeMethod s) = normalizeMethod s := by
  unfold pyLower normalizeMethod
  congr 1
  apply map_toLower_fix
  intro c hc
  simp only [String.toList] at hc
  exact (List.mem_filter.mp hc).2

theorem firstMax_mem (c : Candidate) (cs : List Candidate) :
    (cs.foldl (fun best x => if best.score < x.score then x else best) c) ∈ c :: cs := by
  induction cs generalizing c with
  | nil => simp
  | cons d t ih =>
      simp only [List.foldl_cons]
      by_cases h : c.score < d.score
      · simp only [if_pos h]
        rcases List.mem_cons.mp (ih d) with h' | h'
        · simp [h']
        · simp [List.mem_cons, h']
      · simp only [if_neg h]
        rcases List.mem_cons.mp (ih c) with h' | h'
        · simp [h']
        · simp [List.mem_cons, h']

theorem firstMax_ge (c : Candidate) (cs : List Candidate) :
    ∀ x ∈ c :: cs, x.score ≤
      (cs.foldl (fun best x => if best.score < x.score then x else best) c).score := by
  induction cs generalizing c with
  | nil => intro x hx; rcases List.mem_cons.mp hx with h | h; · subst h; rfl
           · simp at h
  | cons d t ih =>
      intro x hx
      simp only [List.foldl_cons]
      by_cases h : c.score < d.score
      · rw [if_pos h]
        rcases List.mem_cons.mp hx with h' | h'
        · subst h'
          calc x.score ≤ d.score := le_of_lt h
            _ ≤ _ := ih d d (List.mem_cons_self d t)
        · rcases List.mem_cons.mp h' with h'' | h''
          · subst h''; exact ih x x (List.mem_cons_self x t)
          · exact ih d x (List.mem_cons_of_mem d h'')
      · rw [if_neg h]
        rcases List.mem_cons.mp hx with h' | h'
        · subst h'; exact ih x x (List.mem_cons_self x t)
        · rcases List.mem_cons.mp h' with h'' | h''
          · subst h''
            calc x.score ≤ c.score := le_of_not_lt h
              _ ≤ _ := ih c c (List.mem_cons_self c t)
          · exact ih c x (List.mem_cons_of_mem c h'')

theorem firstMaxByScore_mem (cands : List Candidate) (h : cands ≠ []) :
    firstMaxByScore cands ∈ cands := by
  cases cands with
  | nil => exact absurd rfl h
  | cons c cs => exact firstMax_mem c cs

theorem firstMaxByScore_ge (cands : List Candidate) (x : Candidate) (hx : x ∈ cands) :
    x.score ≤ (firstMaxByScore cands).score := by
  cases cands with
  | nil => simp at hx
  | cons c cs => exact firstMax_ge c cs x hx

theorem parseFallback_eq {cands : List Candidate} {r m : String}
    (h : parseFallback cands = .found r m) :
    (firstMaxByScore cands).route = r ∧ (firstMaxByScore cands).method = m := by
  unfold parseFallback at h
  cases h
  exact ⟨rfl, rfl⟩

/-- C1: whenever `choose` returns a non-"none" Choice `(r, m)`, some
candidate of the input list has exactly route `r` (string equality) and
method `m` up to ASCII case; `choose` never invents an operation. -/
theorem c1_choose_never_invents (text : String) (cands : List Candidate)
    (r m : String) (h : choose text cands = .found r m) :
    ∃ c ∈ cands, c.route = r ∧ pyLower c.method = pyLower m := by
  unfold choose at h
  split at h
  · exact Choice.noConfusion h
  · split at h
    · exact Choice.noConfusion h
    · split at h
      · exact Choice.noConfusion h
      · next he _ _ =>
        have hne : cands ≠ [] := by
          cases cands
          · simp at he
          · simp
        split at h
        · next route0 rawM rest _ =>
          dsimp only at h
          split at h
          · split at h
            · next c hfind =>
              cases h
              have hp := List.find?_some hfind
              have hm := List.mem_of_find?_eq_some hfind
              simp only [Bool.and_eq_true, decide_eq_true_eq] at hp
              refine ⟨c, hm, hp.1, ?_⟩
              rw [hp.2, pyLower_normalizeMethod]
            · obtain ⟨h1, h2⟩ := parseFallback_eq h
              exact ⟨firstMaxByScore cands, firstMaxByScore_mem cands hne,
                h1, by rw [h2]⟩
          · obtain ⟨h1, h2⟩ := parseFallback_eq h
            exact ⟨firstMaxByScore cands, firstMaxByScore_mem cands hne,
              h1, by rw [h2]⟩
        · obtain ⟨h1, h2⟩ := parseFallback_eq h
          exact ⟨firstMaxByScore cands, firstMaxByScore_mem cands hne,
            h1, by rw [h2]⟩

/-- Witness for C1 at a concrete accepted answer. -/
theorem c1_witness :
    ∃ c ∈ [mkC "/health" "GET" 5], c.route = "/health" ∧
      pyLower c.method = pyLower "get" :=
  c1_choose_never_invents "/health get" [mkC "/health" "GET" 5]
    "/health" "get" (by rfl)

/-- C2, counterexample: with a positive-score candidate available and
the backend yielding an empty answer, `choose` returns "none" — not the
top-scored candidate the claim promises. -/
theorem c2_counterexample :
    choose "" [mkC "/health" "get" 5] = Choice.none ∧
      (0 : Int) < (firstMaxByScore [mkC "/health" "get" 5]).score := by
  exact ⟨rfl, by decide⟩

/-- C2 amended: when the backend call yields an empty answer
(unreachable backend), `choose` returns Choice "none" unconditionally —
deterministically and independently of the candidates' scores. -/
theorem c2_empty_answer_gives_none (cands : List Candidate) :
    choose "" cands = Choice.none := by
  cases cands <;> rfl

/-- The acceptance test of the parsing/validation pipeline: the answer
yields at least two whitespace tokens, the normalized method is valid,
and some candidate matches `(route, method)`. -/
def llmAnswerAccepted (text : String) (candidates : List Candidate) : Bool :=
  match pySplitWs (pyStrip text) with
  | route0 :: rawMethod :: _ =>
      let route := pyStrip route0
      let method := normalizeMethod rawMethod
      decide (method ∈ VALID_METHODS) &&
        candidates.any fun c => c.route = route && pyLower c.method = method
  | _ => false

/-- C3, counterexample: an unparsable answer over a single candidate of
score 0 makes `choose` return that candidate — the claim instead
requires Choice "none" for top score ≤ 0. -/
theorem c3_counterexample :
    choose "zzz qqq" [mkC "/a" "get" 0] = Choice.found "/a" "get" ∧
      (firstMaxByScore [mkC "/a" "get" 0]).score ≤ 0 := by
  exact ⟨rfl, by decide⟩

/-- C3 amended: whenever `choose` reaches the parsing/validation
fallback (nonempty candidates, nonempty answer, no `NONE` prefix, and
the answer is not accepted against the candidate list), it returns the
first maximum-score candidate's `(route, method)` unconditionally — no
score threshold is applied on this path.  (The `score ≤ 0 → "none"`
rule exists only in the `except` handler, which cannot trigger for
candidates that actually carry route/method/score fields.) -/
theorem c3_fallback_returns_first_max (text : String) (cands : List Candidate)
    (h0 : cands ≠ []) (h1 : text ≠ "")
    (h2 : strStarts "NONE" (pyUpper text) = false)
    (h3 : llmAnswerAccepted text cands = false) :
    choose text cands = Choice.found (firstMaxByScore cands).route
        (firstMaxByScore cands).method ∧
      firstMaxByScore cands ∈ cands ∧
      ∀ c ∈ cands, c.score ≤ (firstMaxByScore cands).score := by
  refine ⟨?_, firstMaxByScore_mem cands h0, fun c hc => firstMaxByScore_ge cands c hc⟩
  unfold choose
  rw [if_neg (by simpa using h0), if_neg h1, if_neg (by simp [h2])]
  unfold llmAnswerAccepted at h3
  split at h3
  · next route0 rawM rest heq =>
      dsimp only
      dsimp only at h3
      by_cases hv : normalizeMethod rawM ∈ VALID_METHODS
      · rw [if_pos hv]
        have h3' : ∀ x ∈ cands,
            ¬ ((decide (x.route = pyStrip route0) &&
                decide (pyLower x.method = normalizeMethod rawM)) = true) := by
          intro x hx hpx
          have hany : (cands.any fun c => decide (c.route = pyStrip route0) &&
              decide (pyLower c.method = normalizeMethod rawM)) = true :=
            List.any_eq_true.mpr ⟨x, hx, hpx⟩
          simp [hany, hv] at h3
        rw [List.find?_eq_none.mpr h3']
        rfl
      · rw [if_neg hv]
        rfl
  · rfl

/-- Witness for C3's amended theorem at a concrete unparsable answer. -/
theorem c3_fallback_witness :
    choose "zzz" [mkC "/a" "get" 0] = Choice.found "/a" "get" := by
  have h := c3_fallback_returns_first_max "zzz" [mkC "/a" "get" 0]
    (by simp) (by simp) (by rfl) (by rfl)
  exact h.1

/-- C5, counterexample: a token appearing in both the tokenized
operationId and the tokenized summary scores 2.0 for that rule, not the
4.0 the claim asserts: the two field matches share a single `+2.0`. -/
theorem c5_counterexample :
    score_endpoint ["foo"] "/x" "get"
      (.obj [("operationId", .str "foo"), ("summary", .str "foo")]) (.obj []) = 2 ∧
    (2 : Int) ≠ 4 := by
  exact ⟨by rfl, by decide⟩

/-- C5 amended: for a single query token that appears in the tokenized
operationId or in the tokenized summary (in particular when it appears
in both), the operationId/summary rule contributes exactly 2.0 — the
total is 2 plus the independent path, description and schema-name
contributions. -/
theorem c5_op_or_summary_scores_two (t path method : String) (info cs : Json)
    (h : t ∈ pyTokens (fieldStr info "operationId") ∨
         t ∈ pyTokens (fieldStr info "summary")) :
    score_endpoint [t] path method info cs =
      (if strIn t (pyLower path) then 3 else 0) + 2
        + (if t ∈ pyTokens (fieldStr info "description") then 1 else 0)
        + (if t ∈ scoreSchemaNames info then 1 else 0) := by
  simp only [score_endpoint, List.map_cons, List.map_nil, List.sum_cons,
    List.sum_nil, tokenScore, add_zero]
  rw [if_pos h]

/-- Witness for C5's amended theorem. -/
theorem c5_witness :
    score_endpoint ["foo"] "/x" "g" (.obj [("operationId", .str "foo"),
        ("summary", .str "foo")]) (.obj []) =
      (if strIn "foo" (pyLower "/x") then 3 else 0) + 2
        + (if "foo" ∈ pyTokens (fieldStr (.obj [("operationId", .str "foo"),
            ("summary", .str "foo")]) "description") then 1 else 0)
        + (if "foo" ∈ scoreSchemaNames (.obj [("operationId", .str "foo"),
            ("summary", .str "foo")]) then 1 else 0) :=
  c5_op_or_summary_scores_two "foo" "/x" "g" (.obj [("operationId", .str "foo"),
    ("summary", .str "foo")]) (.obj []) (Or.inl (by decide))

instance : IsTrans Candidate candRel :=
  ⟨fun a b c hab hbc => by
    rcases hab with h1 | ⟨h1, h2⟩
    · rcases hbc with g1 | ⟨g1, g2⟩
      · exact Or.inl (lt_trans g1 h1)
      · exact Or.inl (by omega)
    · rcases hbc with g1 | ⟨g1, g2⟩
      · exact Or.inl (by omega)
      · refine Or.inr ⟨by omega, ?_⟩
        rcases h2 with h2 | ⟨h2, h3⟩
        · rcases g2 with g2 | ⟨g2, g3⟩
          · exact Or.inl (lt_trans h2 g2)
          · exact Or.inl (g2 ▸ h2)
        · rcases g2 with g2 | ⟨g2, g3⟩
          · exact Or.inl (h2 ▸ g2)
          · exact Or.inr ⟨h2.trans g2, le_trans h3 g3⟩⟩

instance : IsTotal Candidate candRel :=
  ⟨fun a b => by
    rcases lt_trichotomy a.score b.score with h | h | h
    · exact Or.inr (Or.inl h)
    · rcases lt_trichotomy a.route b.route with g | g | g
      · exact Or.inl (Or.inr ⟨h, Or.inl g⟩)
      · rcases le_total a.method b.method with f | f
        · exact Or.inl (Or.inr ⟨h, Or.inr ⟨g, f⟩⟩)
        · exact Or.inr (Or.inr ⟨h.symm, Or.inr ⟨g.symm, f⟩⟩)
      · exact Or.inr (Or.inr ⟨h.symm, Or.inl g⟩)
    · exact Or.inl (Or.inl h)⟩

theorem specOperations_route_mem {spec : Json} {rmi : String × String × Json}
    (h : rmi ∈ specOperations spec) :
    rmi.1 ∈ (pathsOf spec).items.map Prod.fst := by
  unfold specOperations at h
  simp only [List.mem_flatMap] at h
  obtain ⟨rm, hrm, hi⟩ := h
  simp only [List.mem_filterMap] at hi
  obtain ⟨mi, hmi, hok⟩ := hi
  split at hok
  · cases hok
    exact List.mem_map.mpr ⟨rm, hrm, rfl⟩
  · exact Option.noConfusion hok

/-- C4: for every well-formed document, query and `top_k`,
`find_candidates` returns at most `top_k` candidates, sorted by score
descending with ties broken by route then method ascending, and every
returned route is a key of the document's `paths` mapping. -/
theorem c4_find_candidates_shape (spec : Json) (q : String) (k : Nat)
    (hwf : SpecWF spec = true) :
    (find_candidates spec q k).length ≤ k ∧
    List.Sorted candRel (find_candidates spec q k) ∧
    ∀ c ∈ find_candidates spec q k,
      c.route ∈ (pathsOf spec).items.map Prod.fst := by
  refine ⟨?_, ?_, ?_⟩
  · rw [find_candidates, List.length_take]
    exact min_le_left _ _
  · exact (List.sorted_insertionSort candRel _).sublist
      (List.take_sublist _ _)
  · intro c hc
    have h1 : c ∈ List.insertionSort candRel (rawCandidates spec (pyTokens q)) :=
      List.mem_of_mem_take hc
    have h2 : c ∈ rawCandidates spec (pyTokens q) :=
      (List.mem_insertionSort candRel).mp h1
    unfold rawCandidates at h2
    simp only [List.mem_map] at h2
    obtain ⟨rmi, hrmi, hc2⟩ := h2
    have := specOperations_route_mem hrmi
    rw [← hc2]
    exact this

/-- Witness for C4 at a concrete document. -/
theorem c4_witness :
    (find_candidates exSpecHealth "health" 10).length ≤ 10 ∧
    List.Sorted candRel (find_candidates exSpecHealth "health" 10) ∧
    ∀ c ∈ find_candidates exSpecHealth "health" 10,
      c.route ∈ (pathsOf exSpecHealth).items.map Prod.fst :=
  c4_find_candidates_shape exSpecHealth "health" 10 (by rfl)

/-- C6, counterexample: a well-formed document with exactly one
operation and `top_k = 0` makes `find_candidates` return the empty
list, although the document does not have zero operations. -/
theorem c6_counterexample :
    find_candidates exSpecHealth "q" 0 = [] ∧
      (specOperations exSpecHealth).length = 1 := by
  exact ⟨rfl, rfl⟩

/-- C6 amended: `find_candidates` (a pure total function of its
arguments) returns the empty list iff the document has zero operations,
provided `top_k ≥ 1`. -/
theorem c6_empty_iff_no_operations (spec : Json) (q : String) (k : Nat)
    (hwf : SpecWF spec = true) (hk : 1 ≤ k) :
    (find_candidates spec q k = [] ↔ specOperations spec = []) := by
  unfold find_candidates
  rw [List.take_eq_nil_iff]
  constructor
  · intro h
    rcases h with h | h
    · omega
    · have hne : rawCandidates spec (pyTokens q) = [] := by
        have hl := List.length_insertionSort candRel (rawCandidates spec (pyTokens q))
        rw [h] at hl
        exact List.eq_nil_of_length_eq_zero hl.symm
      unfold rawCandidates at hne
      exact List.map_eq_nil.mp hne
  · intro h
    right
    have hne : rawCandidates spec (pyTokens q) = [] := by
      unfold rawCandidates
      rw [h]
      rfl
    rw [hne]
    rfl

/-- Witness for C6's amended theorem. -/
theorem c6_witness :
    (find_candidates exSpecHealth "q" 1 = [] ↔ specOperations exSpecHealth = []) :=
  c6_empty_iff_no_operations exSpecHealth "q" 1 (by rfl) (by decide)

/-! ### C8: operation lookup -/

/-- C8, counterexample: in a document declaring `/a/` (with a GET) and
then `/a` (empty), looking up `("/a", "get")` finds `/a` directly as a
key with no `get` under it — the claim then requires the "operation not
found" error — yet `render_summary` returns the `/a/` operation,
because the code falls back to the slash-stripped scan whenever the
direct entry is falsy, not only when the route is absent. -/
theorem c8_counterexample :
    render_summary exSpecSlash "/a" "get" =
      .obj [("route", .str "/a"), ("method", .str "get"), ("summary", .str "s"),
            ("description", .null), ("operationId", .null),
            ("schema_refs", .arr [])] ∧
    (pathsOf exSpecSlash).lookup "/a" = some (.obj []) ∧
    (Json.obj []).lookup "get" = none ∧
    render_summary exSpecSlash "/a" "get" ≠ errNotFound := by
  refine ⟨rfl, rfl, rfl, ?_⟩
  intro h
  have hval : render_summary exSpecSlash "/a" "get" =
      .obj [("route", .str "/a"), ("method", .str "get"), ("summary", .str "s"),
            ("description", .null), ("operationId", .null),
            ("schema_refs", .arr [])] := rfl
  rw [hval, errNotFound] at h
  simp at h

/-- The entry the lookup actually selects, stated declaratively: the
direct entry if it is truthy, else the value of the first
slash-stripped-equal key (null if none matches). -/
def selectedEntry (spec : Json) (route : String) : Json :=
  let paths := pathsOf spec
  let direct := (paths.lookup route).getD .null
  if direct.truthy then direct
  else
    match paths.items.find? (fun kv => rstripSlash kv.1 = rstripSlash route) with
    | some kv => (paths.lookup kv.1).getD .null
    | none => .null

theorem findOperation_eq_selectedEntry (spec : Json) (route method : String) :
    findOperation spec route method =
      (if (selectedEntry spec route).truthy then
        (selectedEntry spec route).lookup (pyLower method) else none) := by
  unfold findOperation selectedEntry
  dsimp only
  by_cases h1 : ((pathsOf spec).lookup route |>.getD .null).truthy
  · rw [if_pos h1, if_pos h1]
    by_cases h2 : ((pathsOf spec).lookup route |>.getD .null).truthy
    · simp [h2]
    · exact absurd h1 h2
  · rw [if_neg h1, if_neg h1]
    cases hf : (pathsOf spec).items.find?
        (fun kv => rstripSlash kv.1 = rstripSlash route) with
    | some kv =>
        cases hx : (((pathsOf spec).lookup kv.1).getD Json.null).truthy <;> simp [hx]
    | none =>
        cases hb : (((pathsOf spec).lookup route).getD Json.null).truthy with
        | true => exact absurd hb h1
        | false => simp [hb, Json.truthy]

theorem Json.lookup_eq_none_of_falsy {j : Json} (h : j.truthy = false) (k : String) :
    j.lookup k = none := by
  cases j with
  | obj fs =>
      cases fs with
      | nil => rfl
      | cons a l => simp [Json.truthy] at h
  | null => rfl
  | bool b => rfl
  | num n => rfl
  | str s => rfl
  | arr xs => rfl

/-- C8 amended: for every well-formed document, `render_summary`
produces `{"error": "operation not found"}` (and never raises) exactly
when the method key is missing or falsy under the entry the lookup
selects — where the selected entry is the direct `paths[route]` when
that is truthy, and otherwise the value of the first path key equal to
the route modulo trailing slashes (so the slash-stripped scan also runs
when the route is present but maps to an empty/falsy entry). -/
theorem c8_lookup_characterization (spec : Json) (route method : String)
    (hwf : SpecWF spec = true) :
    (render_summary spec route method = errNotFound ↔
      (((selectedEntry spec route).lookup (pyLower method)).getD .null).truthy = false) := by
  unfold render_summary
  rw [findOperation_eq_selectedEntry]
  cases hs : (selectedEntry spec route).truthy with
  | false =>
      rw [if_neg (by simp [hs])]
      rw [Json.lookup_eq_none_of_falsy hs]
      simp [Json.truthy]
  | true =>
      rw [if_pos (rfl : (true : Bool) = true)]
      cases hl : (selectedEntry spec route).lookup (pyLower method) with
      | none => simp [Json.truthy]
      | some op =>
          cases ho : op.truthy with
          | false => simp [ho]
          | true =>
              simp only [ho, Bool.not_true, Option.getD_some]
              rw [if_neg (by simp)]
              constructor
              · intro h
                rw [errNotFound] at h
                simp at h
              · intro h
                exact Bool.noConfusion h

/-- Witness for C8's amended theorem at the two-notation document. -/
theorem c8_witness :
    (render_summary exSpecSlash "/a" "get" = errNotFound ↔
      (((selectedEntry exSpecSlash "/a").lookup (pyLower "get")).getD .null).truthy = false) :=
  c8_lookup_characterization exSpecSlash "/a" "get" (by rfl)

/-! ### C9: renderer result shapes -/

/-- C9, counterexample: an operation that declares no request body
makes `render_sample` return `{"error": "no requestBody schema found"}`
— an error-shaped result different from `{"error": "operation not
found"}`, which the claim says is the only error this interface
produces. -/
theorem c9_counterexample :
    render_sample exSpecNoRB "/a" "get" = errNoRB ∧ errNoRB ≠ errNotFound := by
  refine ⟨rfl, ?_⟩
  intro h
  rw [errNoRB, errNotFound] at h
  simp at h

theorem renderSampleLoop_error (spec : Json) (l : List (String × Json)) :
    (renderSampleLoop spec l).lookup "error" ≠ none →
    renderSampleLoop spec l = errNoRB := by
  induction l with
  | nil => intro _; rfl
  | cons mc rest ih =>
      obtain ⟨mime, c⟩ := mc
      unfold renderSampleLoop
      dsimp only
      by_cases h1 : (((pyOr (c.getD "schema" Json.null) (Json.obj [])).lookup
          "$ref").getD Json.null).truthy
      · rw [if_pos h1]
        cases hr : resolveSchemaRef spec
            (((pyOr (c.getD "schema" Json.null) (Json.obj [])).lookup
              "$ref").getD Json.null) with
        | some so =>
            dsimp only
            by_cases h2 : so.truthy
            · rw [if_pos h2]
              intro h
              exact absurd (by simp [Json.lookup]) h
            · rw [if_neg h2]
              exact ih
        | none => dsimp only; exact ih
      · rw [if_neg h1]
        intro h
        exact absurd (by simp [Json.lookup]) h

/-- C9 amended: for every well-formed document, each renderer returns
either a structured success result (whose dict has no "error" key) or
`{"error": "operation not found"}`, except that `render_sample` may
additionally return `{"error": "no requestBody schema found"}`; no
other error-shaped result is produced at this interface, and none of
the renderers raises. -/
theorem c9_error_shapes (spec : Json) (r m : String) (hwf : SpecWF spec = true) :
    ((render_summary spec r m).lookup "error" ≠ none →
        render_summary spec r m = errNotFound) ∧
    ((render_schema spec r m).lookup "error" ≠ none →
        render_schema spec r m = errNotFound) ∧
    ((render_curl spec r m).lookup "error" ≠ none →
        render_curl spec r m = errNotFound) ∧
    ((render_sample spec r m).lookup "error" ≠ none →
        render_sample spec r m = errNotFound ∨ render_sample spec r m = errNoRB) := by
  refine ⟨?_, ?_, ?_, ?_⟩
  · unfold render_summary
    cases findOperation spec r m with
    | none => intro _; rfl
    | some op =>
        dsimp only
        cases ho : op.truthy with
        | false => intro _; simp [ho]
        | true =>
            rw [if_neg (by simp [ho])]
            intro h
            exact absurd (by simp [Json.lookup]) h
  · unfold render_schema
    cases findOperation spec r m with
    | none => intro _; rfl
    | some op =>
        dsimp only
        cases ho : op.truthy with
        | false => intro _; simp [ho]
        | true =>
            rw [if_neg (by simp [ho])]
            intro h
            exact absurd (by simp [Json.lookup]) h
  · unfold render_curl
    cases findOperation spec r m with
    | none => intro _; rfl
    | some op =>
        dsimp only
        cases ho : op.truthy with
        | false => intro _; simp [ho]
        | true =>
            rw [if_neg (by simp [ho])]
            intro h
            exact absurd (by simp [Json.lookup]) h
  · unfold render_sample
    cases findOperation spec r m with
    | none => intro _; exact Or.inl rfl
    | some op =>
        dsimp only
        cases ho : op.truthy with
        | false => intro _; simp [ho]
        | true =>
            rw [if_neg (by simp [ho])]
            intro h
            exact Or.inr (renderSampleLoop_error spec _ h)

/-- Witness for C9's amended theorem at the no-request-body document. -/
theorem c9_witness :
    ((render_summary exSpecNoRB "/a" "get").lookup "error" ≠ none →
        render_summary exSpecNoRB "/a" "get" = errNotFound) ∧
    ((render_schema exSpecNoRB "/a" "get").lookup "error" ≠ none →
        render_schema exSpecNoRB "/a" "get" = errNotFound) ∧
    ((render_curl exSpecNoRB "/a" "get").lookup "error" ≠ none →
        render_curl exSpecNoRB "/a" "get" = errNotFound) ∧
    ((render_sample exSpecNoRB "/a" "get").lookup "error" ≠ none →
        render_sample exSpecNoRB "/a" "get" = errNotFound ∨
          render_sample exSpecNoRB "/a" "get" = errNoRB) :=
  c9_error_shapes exSpecNoRB "/a" "get" (by rfl)

/-! ### C10: `render_curl` media selection -/

/-- C10, counterexample: the operation declares the media types
`application/xml` (first, with an unsampleable empty schema) and
`application/json` (second); the produced command carries the *second*
media type's content-type header and body, although the claim says only
the first declared media type is ever used. -/
theorem c10_counterexample :
    render_curl exSpecMulti "/a" "post" =
      .obj [("curl", .str "curl -X POST \"http://<HOST>/a\" -H \"Content-Type: application/json\" -d '0'")] ∧
    (∃ op, findOperation exSpecMulti "/a" "post" = some op ∧
      (contentJ op).items.map Prod.fst = ["application/xml", "application/json"]) := by
  exact ⟨rfl, ⟨_, rfl, rfl⟩⟩

/-- The loop of `render_curl` appends the header/body segment of the
first media type whose sample is generable (not `None`), and nothing
when no media type qualifies. -/
theorem curlBodySuffix_eq_find (spec : Json) (l : List (String × Json)) :
    curlBodySuffix spec l =
      match l.find? (fun mc => !(mediaSample spec mc.2).isNull) with
      | some mc => " -H \"Content-Type: " ++ mc.1 ++ "\" -d '"
          ++ jsonDumps (mediaSample spec mc.2) ++ "'"
      | none => "" := by
  induction l with
  | nil => rfl
  | cons mc rest ih =>
      obtain ⟨mime, c⟩ := mc
      unfold curlBodySuffix
      dsimp only
      cases hn : (mediaSample spec c).isNull with
      | true =>
          rw [if_pos rfl]
          rw [List.find?_cons_of_neg _ (by simp [hn])]
          exact ih
      | false =>
          rw [if_neg (by simp)]
          rw [List.find?_cons_of_pos _ (by simp [hn])]

/-- C10 amended: for every well-formed document and resolved truthy
operation, `render_curl` builds the base command and appends exactly
one `Content-Type` header and one JSON-encoded body for the *first
media type whose sample generation succeeds* (is not null), in
encounter order — later media types never contribute, and none
contributes when every sample is null — plus the bearer-token header
when a security requirement is present. -/
theorem c10_first_generable_media (spec : Json) (r m : String) (op : Json)
    (hwf : SpecWF spec = true) (hop : findOperation spec r m = some op)
    (ht : op.truthy = true) :
    render_curl spec r m = .obj [("curl", .str
      ("curl -X " ++ pyUpper m ++ " \"http://<HOST>" ++ r ++ "\""
        ++ (match (contentJ op).items.find?
              (fun mc => !(mediaSample spec mc.2).isNull) with
            | some mc => " -H \"Content-Type: " ++ mc.1 ++ "\" -d '"
                ++ jsonDumps (mediaSample spec mc.2) ++ "'"
            | none => "")
        ++ (if (pyOr (op.getD "security" .null)
              (pyOr (spec.getD "security" .null) (.arr []))).truthy then
            " -H \"Authorization: Bearer <TOKEN>\"" else "")))] := by
  unfold render_curl
  rw [hop]
  dsimp only
  rw [if_neg (by simp [ht])]
  rw [curlBodySuffix_eq_find]
  cases hsec : (pyOr (op.getD "security" .null)
      (pyOr (spec.getD "security" .null) (.arr []))).truthy with
  | true =>
      rw [if_pos rfl, if_pos rfl]
      simp [contentJ, rbJ]
  | false =>
      rw [if_neg (by simp), if_neg (by simp)]
      simp [contentJ, rbJ]

/-- Witness for C10's amended theorem at the two-media document. -/
theorem c10_witness :
    render_curl exSpecMulti "/a" "post" = .obj [("curl", .str
      ("curl -X " ++ pyUpper "post" ++ " \"http://<HOST>" ++ "/a" ++ "\""
        ++ (match (contentJ ((findOperation exSpecMulti "/a" "post").getD .null)).items.find?
              (fun mc => !(mediaSample exSpecMulti mc.2).isNull) with
            | some mc => " -H \"Content-Type: " ++ mc.1 ++ "\" -d '"
                ++ jsonDumps (mediaSample exSpecMulti mc.2) ++ "'"
            | none => "")
        ++ (if (pyOr (((findOperation exSpecMulti "/a" "post").getD .null).getD "security" .null)
              (pyOr (exSpecMulti.getD "security" .null) (.arr []))).truthy then
            " -H \"Authorization: Bearer <TOKEN>\"" else "")))] :=
  c10_first_generable_media exSpecMulti "/a" "post"
    ((findOperation exSpecMulti "/a" "post").getD .null) (by rfl) (by rfl) (by rfl)

/-! ### C7: totality and raising behaviour of `sample_from_schema` -/

theorem sizeJ_pos (j : Json) : 1 ≤ sizeJ j := by
  cases j <;> simp [sizeJ]

theorem sizeJF_pos (fs : List (String × Json)) : 1 ≤ sizeJF fs := by
  cases fs <;> simp [sizeJF] <;> omega

theorem sizeJF_ge_of_mem {kv : String × Json} {fs : List (String × Json)}
    (h : kv ∈ fs) : 2 + sizeJ kv.2 ≤ sizeJF fs := by
  induction fs with
  | nil => simp at h
  | cons hd tl ih =>
      rcases List.mem_cons.mp h with h | h
      · subst h
        have := sizeJF_pos tl
        simp [sizeJF]; omega
      · have := ih h
        have h2 := sizeJ_pos hd.2
        simp [sizeJF]; omega

theorem sizeJ_lookup_bound {j : Json} {k : String} {v : Json}
    (h : j.lookup k = some v) : 3 + sizeJ v ≤ sizeJ j := by
  cases j with
  | obj fs =>
      simp only [Json.lookup, Option.map_eq_some'] at h
      obtain ⟨kv, hfind, hv⟩ := h
      have hmem := List.mem_of_find?_eq_some hfind
      have := sizeJF_ge_of_mem hmem
      subst hv
      simp [sizeJ]; omega
  | null => simp [Json.lookup] at h
  | bool b => simp [Json.lookup] at h
  | num n => simp [Json.lookup] at h
  | str s => simp [Json.lookup] at h
  | arr xs => simp [Json.lookup] at h

theorem sizeJ_mem_arr_lt {x : Json} {xs : List Json} (h : x ∈ xs) :
    sizeJ x < sizeJ (.arr xs) := by
  have : sizeJ x < sizeJL xs := by
    induction xs with
    | nil => simp at h
    | cons hd tl ih =>
        rcases List.mem_cons.mp h with h | h
        · subst h; simp [sizeJL]; omega
        · have := ih h; simp [sizeJL]; omega
  simp [sizeJ]; omega

theorem allCongrB {α : Type} (l : List α) (f g : α → Bool)
    (h : ∀ x ∈ l, f x = g x) : l.all f = l.all g := by
  induction l with
  | nil => rfl
  | cons hd tl ih =>
      simp only [List.all_cons]
      rw [h hd (List.mem_cons_self hd tl),
        ih fun x hx => h x (List.mem_cons_of_mem hd hx)]

theorem propsOkF_stable : ∀ n m : Nat, ∀ j : Json,
    sizeJ j ≤ n → sizeJ j ≤ m → propsOkF n j = propsOkF m j := by
  intro n
  induction n with
  | zero => intro m j hn _; have := sizeJ_pos j; omega
  | succ n ih =>
      intro m j hn hm
      cases m with
      | zero => have := sizeJ_pos j; omega
      | succ m =>
          cases j with
          | obj fs =>
              simp only [propsOkF]
              apply allCongrB
              intro kv hkv
              have hlt := @sizeJ_items_lt (Json.obj fs) kv hkv
              simp only [Json.items] at hlt
              rw [ih m kv.2 (by omega) (by omega)]
          | arr xs =>
              simp only [propsOkF]
              apply allCongrB
              intro x hx
              have hlt := sizeJ_mem_arr_lt hx
              rw [ih m x (by omega) (by omega)]
          | null => rfl
          | bool b => rfl
          | num k => rfl
          | str s => rfl

theorem exFields_isSome (f : Json → Option (Except Unit Json))
    (l : List (String × Json))
    (h : ∀ kv ∈ l, (kv.2).isObjB = true → (f kv.2).isSome = true) :
    (exFields f l).isSome = true := by
  induction l with
  | nil => rfl
  | cons kv rest ih =>
      unfold exFields
      cases hobj : (kv.2).isObjB with
      | true =>
          rw [if_pos rfl]
          have := h kv (List.mem_cons_self kv rest) hobj
          cases hf : f kv.2 with
          | none => rw [hf] at this; exact Bool.noConfusion this
          | some e =>
              cases e with
              | error e0 => rfl
              | ok v =>
                  have hrest := ih fun x hx => h x (List.mem_cons_of_mem kv hx)
                  cases hrest2 : exFields f rest with
                  | none => rw [hrest2] at hrest; exact Bool.noConfusion hrest
                  | some e2 => cases e2 <;> rfl
      | false =>
          rw [if_neg (by simp [hobj])]
          have hrest := ih fun x hx => h x (List.mem_cons_of_mem kv hx)
          cases hrest2 : exFields f rest with
          | none => rw [hrest2] at hrest; exact Bool.noConfusion hrest
          | some e2 => cases e2 <;> rfl

theorem exFields_ok (f : Json → Option (Except Unit Json)) (g : Json → Json)
    (l : List (String × Json))
    (h : ∀ kv ∈ l, (kv.2).isObjB = true → f kv.2 = some (.ok (g kv.2))) :
    exFields f l = some (.ok (l.map fun kv =>
      (kv.1, if (kv.2).isObjB then g kv.2 else .null))) := by
  induction l with
  | nil => rfl
  | cons kv rest ih =>
      unfold exFields
      have hrest := ih fun x hx => h x (List.mem_cons_of_mem kv hx)
      cases hobj : (kv.2).isObjB with
      | true =>
          rw [if_pos rfl, h kv (List.mem_cons_self kv rest) hobj, hrest]
          simp [hobj]
      | false =>
          rw [if_neg (by simp [hobj]), hrest]
          simp [hobj]

theorem props_items_bound (j : Json) (n : Nat) (hj : sizeJ j ≤ n + 1) :
    ∀ kv ∈ (pyOr (j.getD "properties" (.obj [])) (.obj [])).items, sizeJ kv.2 ≤ n := by
  intro kv hkv
  unfold Json.getD pyOr at hkv
  cases hp : j.lookup "properties" with
  | none => rw [hp] at hkv; simp [Json.truthy, Json.items] at hkv
  | some v =>
      rw [hp] at hkv
      simp only [Option.getD_some] at hkv
      by_cases hv : v.truthy
      · rw [if_pos hv] at hkv
        have h1 := sizeJ_lookup_lt hp
        have h2 := sizeJ_items_lt hkv
        omega
      · rw [if_neg hv] at hkv; simp [Json.items] at hkv

theorem sampleE_isSome : ∀ n : Nat, ∀ j : Json,
    sizeJ j ≤ n → (sampleE n j).isSome = true := by
  intro n
  induction n with
  | zero => intro j h; have := sizeJ_pos j; omega
  | succ n ih =>
      intro j hj
      cases hobj : j.isObjB with
      | false =>
          unfold sampleE; rw [if_pos (by simp [hobj])]; rfl
      | true =>
          unfold sampleE
          rw [if_neg (by simp [hobj])]
          dsimp only
          by_cases hc1 : (((j.lookup "type").getD .null).eqStr "object" ||
              (!((j.lookup "type").getD .null).truthy &&
                (j.lookup "properties").isSome)) = true
          · rw [if_pos hc1]
            cases hpo : (pyOr (j.getD "properties" (.obj [])) (.obj [])).isObjB with
            | false => rw [if_neg (by simp [hpo])]; rfl
            | true =>
                rw [if_pos rfl]
                have hex := exFields_isSome (fun v => sampleE n v)
                  (pyOr (j.getD "properties" (.obj [])) (.obj [])).items
                  (fun kv hkv _ => ih kv.2 (props_items_bound j n hj kv hkv))
                cases hef : exFields (fun v => sampleE n v)
                    (pyOr (j.getD "properties" (.obj [])) (.obj [])).items with
                | none => rw [hef] at hex; exact Bool.noConfusion hex
                | some e => cases e <;> rfl
          · rw [if_neg hc1]
            by_cases hc2 : (((j.lookup "type").getD .null).eqStr "array") = true
            · rw [if_pos hc2]
              have hn3 : 2 ≤ n := by
                cases ht : j.lookup "type" with
                | none => rw [ht] at hc2; simp [Json.eqStr] at hc2
                | some t0 =>
                    rw [ht] at hc2
                    have := sizeJ_lookup_bound ht
                    have ht1 := sizeJ_pos t0
                    omega
              have hib : sizeJ (j.getD "items" (.obj [])) ≤ n := by
                unfold Json.getD
                cases hi : j.lookup "items" with
                | none => simp [sizeJ, sizeJF]; omega
                | some v =>
                    simp only [Option.getD_some]
                    have := sizeJ_lookup_lt hi
                    omega
              have := ih (j.getD "items" (.obj [])) hib
              cases hs : sampleE n (j.getD "items" (.obj [])) with
              | none => rw [hs] at this; exact Bool.noConfusion this
              | some e => cases e <;> rfl
            · rw [if_neg hc2]
              by_cases hc3 : (((j.lookup "type").getD .null).eqStr "string") = true
              · rw [if_pos hc3]
                split <;> rfl
              · rw [if_neg hc3]
                split <;> try rfl
                split <;> try rfl
                split <;> rfl

theorem sampleE_objnil (n : Nat) (h : 1 ≤ n) :
    sampleE n (.obj []) = some (.ok .null) := by
  cases n with
  | zero => omega
  | succ n => rfl

theorem sampleT_objnil (n : Nat) (h : 1 ≤ n) : sampleT n (.obj []) = .null := by
  cases n with
  | zero => omega
  | succ n => rfl

theorem lookup_mem {fs : List (String × Json)} {k : String} {v : Json}
    (h : (Json.obj fs).lookup k = some v) : (k, v) ∈ fs := by
  simp only [Json.lookup, Option.map_eq_some'] at h
  obtain ⟨kv, hfind, hv⟩ := h
  have hk := List.find?_some hfind
  simp only [decide_eq_true_eq] at hk
  have hmem := List.mem_of_find?_eq_some hfind
  cases kv with
  | mk a b =>
      simp only at hk hv
      subst hk; subst hv; exact hmem

theorem propsOkF_lookup {n : Nat} {fs : List (String × Json)}
    (hok : propsOkF (n + 1) (.obj fs) = true) {k : String} {v : Json}
    (hp : (Json.obj fs).lookup k = some v) : propsOkF n v = true := by
  have hmem := lookup_mem hp
  simp only [propsOkF, List.all_eq_true] at hok
  have := hok ⟨k, v⟩ hmem
  simp only [Bool.and_eq_true] at this
  exact this.2

theorem propsOkF_properties_shape {n : Nat} {fs : List (String × Json)}
    (hok : propsOkF (n + 1) (.obj fs) = true) {v : Json}
    (hp : (Json.obj fs).lookup "properties" = some v) : objOrFalsyB v = true := by
  have hmem := lookup_mem hp
  simp only [propsOkF, List.all_eq_true] at hok
  have := hok ⟨"properties", v⟩ hmem
  simp only [Bool.and_eq_true, Bool.or_eq_true, bne_iff_ne, ne_eq] at this
  rcases this.1 with h | h
  · exact absurd trivial h
  · exact h

theorem propsOkF_items {n : Nat} {v : Json} (hv : propsOkF n v = true)
    (kv : String × Json) (hkv : kv ∈ v.items) (hsz : sizeJ v ≤ n) :
    propsOkF n kv.2 = true := by
  cases v with
  | obj gs =>
      cases n with
      | zero => have := sizeJ_pos (Json.obj gs); omega
      | succ m =>
          simp only [propsOkF, List.all_eq_true] at hv
          have h2 := hv kv hkv
          simp only [Bool.and_eq_true] at h2
          have hlt := @sizeJ_items_lt (Json.obj gs) kv hkv
          rw [propsOkF_stable (m + 1) m kv.2 (by omega) (by omega)]
          exact h2.2
  | null => simp [Json.items] at hkv
  | bool b => simp [Json.items] at hkv
  | num k => simp [Json.items] at hkv
  | str s => simp [Json.items] at hkv
  | arr xs => simp [Json.items] at hkv

theorem notObj_obj (fs : List (String × Json)) : (!(Json.obj fs).isObjB) = false := rfl

theorem sampleE_ok_of_propsOk : ∀ n : Nat, ∀ j : Json, sizeJ j ≤ n →
    propsOkF n j = true → sampleE n j = some (.ok (sampleT n j)) := by
  intro n
  induction n with
  | zero => intro j h _; have := sizeJ_pos j; omega
  | succ n ih =>
      intro j hj hok
      cases j with
      | null => rfl
      | bool b => rfl
      | num k => rfl
      | str s => rfl
      | arr xs => rfl
      | obj fs =>
          unfold sampleE sampleT
          simp only [notObj_obj, Bool.false_eq_true, if_false]
          by_cases hc1 : ((((Json.obj fs).lookup "type").getD .null).eqStr "object" ||
              (!(((Json.obj fs).lookup "type").getD .null).truthy &&
                ((Json.obj fs).lookup "properties").isSome)) = true
          · rw [if_pos hc1, if_pos hc1]
            cases hp : (Json.obj fs).lookup "properties" with
            | none =>
                have hprops : pyOr ((Json.obj fs).getD "properties" (.obj []))
                    (.obj []) = .obj [] := by
                  unfold Json.getD pyOr; rw [hp]; rfl
                rw [hprops]
                rfl
            | some v =>
                have hOF := propsOkF_properties_shape hok hp
                have hpok := propsOkF_lookup hok hp
                by_cases hv2 : v.truthy = true
                · have hprops : pyOr ((Json.obj fs).getD "properties" (.obj []))
                      (.obj []) = v := by
                    unfold Json.getD pyOr; rw [hp]; simp [hv2]
                  rw [hprops]
                  have hvobj : v.isObjB = true := by
                    unfold objOrFalsyB at hOF
                    cases hvb : v.isObjB with
                    | true => rfl
                    | false => rw [hvb, hv2] at hOF; exact Bool.noConfusion hOF
                  rw [if_pos hvobj]
                  have hsv : sizeJ v ≤ n := by
                    have := sizeJ_lookup_lt hp; omega
                  have hrec : ∀ kv ∈ v.items, (kv.2).isObjB = true →
                      sampleE n kv.2 = some (.ok (sampleT n kv.2)) := by
                    intro kv hkv _
                    have hsz : sizeJ kv.2 ≤ n := by
                      have := sizeJ_items_lt hkv; omega
                    refine ih kv.2 hsz ?_
                    exact propsOkF_items hpok kv hkv hsv
                  rw [exFields_ok _ (sampleT n) _ hrec]
                · have hprops : pyOr ((Json.obj fs).getD "properties" (.obj []))
                      (.obj []) = .obj [] := by
                    unfold Json.getD pyOr; rw [hp]; simp [hv2]
                  rw [hprops]
                  rfl
          · rw [if_neg hc1, if_neg hc1]
            by_cases hc2 : ((((Json.obj fs).lookup "type").getD .null).eqStr "array") = true
            · rw [if_pos hc2, if_pos hc2]
              cases hi : (Json.obj fs).lookup "items" with
              | some v =>
                  have hgd : (Json.obj fs).getD "items" (.obj []) = v := by
                    unfold Json.getD; rw [hi]; rfl
                  rw [hgd]
                  have hsv : sizeJ v ≤ n := by
                    have := sizeJ_lookup_lt hi; omega
                  have hpokv : propsOkF n v = true := propsOkF_lookup hok hi
                  rw [ih v hsv hpokv]
              | none =>
                  have hgd : (Json.obj fs).getD "items" (.obj []) = .obj [] := by
                    unfold Json.getD; rw [hi]; rfl
                  rw [hgd]
                  have hn1 : 1 ≤ n := by
                    cases ht : (Json.obj fs).lookup "type" with
                    | none => rw [ht] at hc2; simp [Json.eqStr] at hc2
                    | some t0 =>
                        have := sizeJ_lookup_bound ht
                        have := sizeJ_pos t0
                        omega
                  rw [sampleE_objnil n hn1, sampleT_objnil n hn1]
            · rw [if_neg hc2, if_neg hc2]
              by_cases hc3 : ((((Json.obj fs).lookup "type").getD .null).eqStr "string") = true
              · rw [if_pos hc3, if_pos hc3]
                split <;> rfl
              · rw [if_neg hc3, if_neg hc3]
                by_cases hc4 : ((((Json.obj fs).lookup "type").getD .null).eqStr "integer") = true
                · rw [if_pos hc4, if_pos hc4]
                · rw [if_neg hc4, if_neg hc4]
                  by_cases hc5 : ((((Json.obj fs).lookup "type").getD .null).eqStr "number") = true
                  · rw [if_pos hc5, if_pos hc5]
                  · rw [if_neg hc5, if_neg hc5]
                    by_cases hc6 : ((((Json.obj fs).lookup "type").getD .null).eqStr "boolean") = true
                    · rw [if_pos hc6, if_pos hc6]
                    · rw [if_neg hc6, if_neg hc6]

/-- A well-shaped object schema used as the C7 witness input. -/
def exGoodSchema : Json :=
  .obj [("type", .str "object"),
        ("properties", .obj [("name", .obj [("type", .str "string")])])]

/-- C7, counterexample: on the malformed JSON-Schema-shaped dict
`{"type": "object", "properties": "x"}` the source raises
(`"x".items()` is an `AttributeError`), so `sample_from_schema` is not
total on malformed dicts as the claim states. -/
theorem c7_counterexample :
    sample_from_schema (.obj [("type", .str "object"),
      ("properties", .str "x")]) = .error () := by
  rfl

/-- C7 amended: the recursion of `sample_from_schema` terminates on
every input (fuel `sizeJ s` always yields an outcome), and on every
input whose truthy `properties` values are all mappings (`PropsOk`) it
returns a JSON value without raising — the value computed by the
totalised sampler.  Determinism holds by construction: the embedding is
a pure function of the schema.  The one exception to totality is a
truthy non-mapping `properties` value under an object-typed or untyped
schema, where the source raises `AttributeError`. -/
theorem c7_total_on_propsOk (s : Json) :
    (sampleE (sizeJ s) s).isSome = true ∧
    (PropsOk s = true → sample_from_schema s = .ok (sampleTotal s)) := by
  refine ⟨sampleE_isSome (sizeJ s) s (le_refl _), fun h => ?_⟩
  unfold sample_from_schema sampleTotal
  unfold PropsOk at h
  rw [sampleE_ok_of_propsOk (sizeJ s) s (le_refl _) h]
  rfl

/-- Witness for C7's amended theorem at a concrete object schema. -/
theorem c7_witness :
    sample_from_schema exGoodSchema = .ok (sampleTotal exGoodSchema) :=
  (c7_total_on_propsOk exGoodSchema).2 (by rfl)
